import Mathlib

/-!
ParseFrame: the scope-tracking stack of the indenter.

A shallow embedding of `src/ParseFrame.cpp`.  The vector `pse` is a list whose
head is the bottom of the stack (index 0) and whose last element is the top.
Operations that can throw, or that would dereference an iterator outside the
vector, return `Except Failure _`.  Logging calls (`LOG_FUNC_ENTRY`, `LOG_FMT`)
and the `func`/`line` arguments that only feed them are left out: they do not
touch the frame.
-/

set_option linter.unusedVariables false
set_option linter.dupNamespace false

/-- Modelled from the spec: the declaration of `c_token_t` is not in src/.  Only
`CT_NONE` and `CT_EOF` are named by `ParseFrame.cpp`; the brace and parenthesis
kinds come from the end-to-end scenario of the spec, and every other enumerator
is `CT_OTHER code`.  `CT_NONE` is taken to be the enumerator with value zero
(the "none" kind), the value an entry gets from value-initialisation. -/
inductive c_token_t where
  | CT_NONE
  | CT_EOF
  | CT_BRACE_OPEN
  | CT_PAREN_OPEN
  | CT_OTHER (code : Nat)
  deriving DecidableEq

instance : Inhabited c_token_t := ⟨c_token_t.CT_NONE⟩

/-- Modelled from the spec: the declaration of `brace_stage_e` is not in src/.
The spec calls it an opaque enumerated tag stored by value, so it is the
numeric value of the enumerator; zero is the value-initialised stage. -/
abbrev brace_stage_e : Type := Nat

/-- Modelled from the spec: the flag set of a token (`pc->flags`) is declared
outside src/.  It is a bit set, kept as the number whose binary digits are the
flags. -/
structure pcf_flags_t where
  bits : Nat := 0
  deriving DecidableEq

/-- Modelled from the spec: the mask of the preprocessor-membership flag; its
declaration is not in src/, any single bit would do. -/
def PCF_IN_PREPROC : Nat := 1

/-- The call `flags.test(mask)`: some bit of the mask is set. -/
def pcf_flags_t.test (fl : pcf_flags_t) (mask : Nat) : Bool :=
  fl.bits &&& mask != 0

/-- Modelled from the spec: the declaration of `chunk_t` (the token) is not in
src/.  These are the fields `ParseFrame.cpp` reads from a token. -/
structure chunk_t where
  type : c_token_t := c_token_t.CT_NONE
  level : Nat := 0
  brace_level : Nat := 0
  orig_line : Nat := 0
  orig_col : Nat := 0
  flags : pcf_flags_t := {}
  deriving DecidableEq

/-- Modelled from the spec: the declaration of `indent_ptr_t`, the type of the
field `ip`, is not in src/ and the spec does not describe it.  The code only
copies it whole from the previous top; it is a token reference and an offset. -/
structure indent_ptr_t where
  ref : Option chunk_t := none
  delta : Int := 0
  deriving DecidableEq

/-- Modelled from the spec: the declaration of `paren_stack_entry_t` (the Scope
Entry) is not in src/.  The fields are those `ParseFrame.cpp` assigns or reads
and those of the data model of the spec; the defaults are the values of a
value-initialised entry (`ContainerType e{}`).  The token pointer `pc` is the
token it points to, `none` for the null pointer. -/
structure paren_stack_entry_t where
  type : c_token_t := c_token_t.CT_NONE
  level : Nat := 0
  open_line : Nat := 0
  open_colu : Nat := 0
  pc : Option chunk_t := none
  indent : Nat := 0
  indent_tmp : Nat := 0
  indent_tab : Nat := 0
  indent_cont : Bool := false
  stage : brace_stage_e := 0
  in_preproc : Bool := false
  non_vardef : Bool := false
  ip : indent_ptr_t := {}
  deriving DecidableEq

/-- What a call can end in besides returning: `out_of_range` is thrown by
`std::vector::at`, `invalid_argument` by `prev` (with the source line of the
`throw`), and `undefined_behaviour` stands for dereferencing an iterator that
does not point at an element of the vector. -/
inductive Failure where
  | out_of_range
  | invalid_argument (line : Nat)
  | undefined_behaviour
  deriving DecidableEq

deriving instance DecidableEq for Except

/-- Modelled from the spec: the class declaration (`ParseFrame.h`) is not in
src/.  The members are the ones `ParseFrame.cpp` uses: the entry vector, the
copy of the last popped entry and the scan-wide counters. -/
structure ParseFrame where
  pse : List paren_stack_entry_t
  last_poped : paren_stack_entry_t
  ref_no : Int
  level : Int
  brace_level : Int
  pp_level : Int
  sparen_count : Int
  paren_count : Int
  in_ifdef : c_token_t
  stmt_count : Int
  expr_count : Int
  deriving DecidableEq

/-- The function `genDummy`: the sentinel entry. -/
def genDummy : paren_stack_entry_t :=
  let tmp_dummy : paren_stack_entry_t := {}
  let tmp_dummy := { tmp_dummy with indent := 1 }
  let tmp_dummy := { tmp_dummy with indent_tmp := 1 }
  let tmp_dummy := { tmp_dummy with indent_tab := 1 }
  let tmp_dummy := { tmp_dummy with type := c_token_t.CT_EOF }
  tmp_dummy

/-- The expression `*std::prev(std::end(pse), n)`: the element `n` places before
the end iterator.  With `n = 0` it dereferences the end iterator and with
`n > pse.size()` it moves before the first element; both are undefined. -/
def deref_prev_end (pse : List paren_stack_entry_t) (n : Nat) :
    Except Failure paren_stack_entry_t :=
  if n = 0 ∨ pse.length < n then Except.error Failure.undefined_behaviour
  else
    match pse[pse.length - n]? with
    | some e => Except.ok e
    | none => Except.error Failure.undefined_behaviour

/-- The method `ParseFrame::clear`. -/
def ParseFrame.clear (f : ParseFrame) : ParseFrame :=
  let f := { f with last_poped := genDummy }
  let f := { f with pse := [] }
  let f := { f with pse := f.pse ++ [genDummy] }
  let f := { f with ref_no := 0 }
  let f := { f with level := 0 }
  let f := { f with brace_level := 0 }
  let f := { f with pp_level := 0 }
  let f := { f with sparen_count := 0 }
  let f := { f with paren_count := 0 }
  let f := { f with in_ifdef := c_token_t.CT_NONE }
  let f := { f with stmt_count := 0 }
  let f := { f with expr_count := 0 }
  f

/-- The method `ParseFrame::empty`. -/
def ParseFrame.empty (f : ParseFrame) : Bool :=
  false

/-- The method `ParseFrame::at` (`pse.at(idx)`), read as a value. -/
def ParseFrame.at (f : ParseFrame) (idx : Nat) : Except Failure paren_stack_entry_t :=
  match f.pse[idx]? with
  | some e => Except.ok e
  | none => Except.error Failure.out_of_range

/-- The non-const method `ParseFrame::prev`, read as a value. -/
def ParseFrame.prev (f : ParseFrame) (idx : Nat) : Except Failure paren_stack_entry_t :=
  if idx = 0 then Except.error (Failure.invalid_argument 73)
  else if idx ≥ f.pse.length then Except.error (Failure.invalid_argument 80)
  else deref_prev_end f.pse (idx + 1)

/-- The const overload of `ParseFrame::prev`. -/
def ParseFrame.prev_const (f : ParseFrame) (idx : Nat) :
    Except Failure paren_stack_entry_t :=
  if idx = 0 ∨ idx ≥ f.pse.length then Except.error (Failure.invalid_argument 90)
  else deref_prev_end f.pse (idx + 1)

/-- The method `ParseFrame::top` (both overloads have the same body). -/
def ParseFrame.top (f : ParseFrame) : Except Failure paren_stack_entry_t :=
  deref_prev_end f.pse 1

/-- The method `ParseFrame::push(chunk_t *pc, func, line, stage)` for a non-null
`pc`. -/
def ParseFrame.push (f : ParseFrame) (pc : chunk_t) (stage : brace_stage_e) :
    Except Failure ParseFrame := do
  let new_entry : paren_stack_entry_t := {}
  let new_entry := { new_entry with type := pc.type }
  let new_entry := { new_entry with level := pc.level }
  let new_entry := { new_entry with open_line := pc.orig_line }
  let new_entry := { new_entry with open_colu := pc.orig_col }
  let new_entry := { new_entry with pc := some pc }
  let new_entry := { new_entry with indent_tab := (← f.top).indent_tab }
  let new_entry := { new_entry with indent_cont := (← f.top).indent_cont }
  let new_entry := { new_entry with stage := stage }
  let new_entry := { new_entry with in_preproc := pc.flags.test PCF_IN_PREPROC }
  let new_entry := { new_entry with non_vardef := false }
  let new_entry := { new_entry with ip := (← f.top).ip }
  pure { f with pse := f.pse ++ [new_entry] }

/-- A write through the reference returned by `top()`: the entry it refers to
becomes `g` of what it was. -/
def ParseFrame.top_write (f : ParseFrame) (g : paren_stack_entry_t → paren_stack_entry_t) :
    Except Failure ParseFrame := do
  let e ← f.top
  pure { f with pse := f.pse.set (f.pse.length - 1) (g e) }

/-- A write through the reference returned by `at(idx)`. -/
def ParseFrame.at_write (f : ParseFrame) (idx : Nat)
    (g : paren_stack_entry_t → paren_stack_entry_t) : Except Failure ParseFrame := do
  let e ← f.at idx
  pure { f with pse := f.pse.set idx (g e) }

/-- A write through the reference returned by `prev(idx)`. -/
def ParseFrame.prev_write (f : ParseFrame) (idx : Nat)
    (g : paren_stack_entry_t → paren_stack_entry_t) : Except Failure ParseFrame := do
  let e ← f.prev idx
  pure { f with pse := f.pse.set (f.pse.length - (idx + 1)) (g e) }

/-- Modelled from the spec: the static `chunk_t dummy` of the dummy push; the
constructor of `chunk_t` is not in src/, the placeholder token has every field
at its zero value. -/
def dummy : chunk_t := {}

/-- The method `ParseFrame::push(std::nullptr_t, stage)`. -/
def ParseFrame.push_nullptr (f : ParseFrame) (stage : brace_stage_e) :
    Except Failure ParseFrame := do
  let f ← f.push dummy stage
  f.top_write (fun e => { e with pc := none })

/-- The method `ParseFrame::pop`. -/
def ParseFrame.pop (f : ParseFrame) : Except Failure ParseFrame := do
  let f := { f with last_poped := (← deref_prev_end f.pse 1) }
  if f.pse.length = 1 then
    pure { f with pse := f.pse.set 0 genDummy }
  else
    pure { f with pse := f.pse.dropLast }

/-- The method `ParseFrame::size`. -/
def ParseFrame.size (f : ParseFrame) : Nat :=
  f.pse.length

/-- The method `ParseFrame::poped`. -/
def ParseFrame.poped (f : ParseFrame) : paren_stack_entry_t :=
  f.last_poped

/-- The constructor `ParseFrame::ParseFrame`: it runs `clear` on the members as
they are before the constructor body, `raw`.  (Declared last among the
`ParseFrame.` definitions, so that the name `ParseFrame` in their signatures
is the class.) -/
def ParseFrame.ParseFrame (raw : ParseFrame) : ParseFrame :=
  ParseFrame.clear raw

/-- Pushing the (token, stage) pairs of a list, first to last. -/
def push_all (f : ParseFrame) : List (chunk_t × brace_stage_e) → Except Failure ParseFrame
  | [] => pure f
  | (pc, stage) :: rest => do
    let f ← f.push pc stage
    push_all f rest

/-- Calling `pop` a number of times in a row. -/
def pop_times (f : ParseFrame) : Nat → Except Failure ParseFrame
  | 0 => pure f
  | n + 1 => do
    let f ← f.pop
    pop_times f n

/-- The frames a caller can get hold of: a constructed frame, and what `clear`,
the two pushes, `pop` and writes through the references handed out by `top`,
`prev` and `at` make of such a frame when they return. -/
inductive Reachable : ParseFrame → Prop where
  | construct (raw : ParseFrame) : Reachable (ParseFrame.ParseFrame raw)
  | clear {f : ParseFrame} : Reachable f → Reachable f.clear
  | push {f g : ParseFrame} (pc : chunk_t) (stage : brace_stage_e) :
      Reachable f → f.push pc stage = Except.ok g → Reachable g
  | push_nullptr {f g : ParseFrame} (stage : brace_stage_e) :
      Reachable f → f.push_nullptr stage = Except.ok g → Reachable g
  | pop {f g : ParseFrame} : Reachable f → f.pop = Except.ok g → Reachable g
  | top_write {f g : ParseFrame} (w : paren_stack_entry_t → paren_stack_entry_t) :
      Reachable f → f.top_write w = Except.ok g → Reachable g
  | prev_write {f g : ParseFrame} (idx : Nat)
      (w : paren_stack_entry_t → paren_stack_entry_t) :
      Reachable f → f.prev_write idx w = Except.ok g → Reachable g
  | at_write {f g : ParseFrame} (idx : Nat)
      (w : paren_stack_entry_t → paren_stack_entry_t) :
      Reachable f → f.at_write idx w = Except.ok g → Reachable g

/-- The entry `push` builds for token `pc` and stage `stage` on top of the
entry `t`: the value of `new_entry` at the `push_back`. -/
def pushed_entry (t : paren_stack_entry_t) (pc : chunk_t) (stage : brace_stage_e) :
    paren_stack_entry_t :=
  { type := pc.type, level := pc.level, open_line := pc.orig_line,
    open_colu := pc.orig_col, pc := some pc, indent := 0, indent_tmp := 0,
    indent_tab := t.indent_tab, indent_cont := t.indent_cont, stage := stage,
    in_preproc := pc.flags.test PCF_IN_PREPROC, non_vardef := false, ip := t.ip }

/-- Members of a frame before its constructor has run: arbitrary values. -/
def sample_raw : ParseFrame :=
  { pse := [], last_poped := {}, ref_no := 5, level := 4, brace_level := 3,
    pp_level := 2, sparen_count := 1, paren_count := 7,
    in_ifdef := c_token_t.CT_EOF, stmt_count := 9, expr_count := 8 }

/-- An opening brace at line 10, column 1. -/
def sample_brace : chunk_t :=
  { type := c_token_t.CT_BRACE_OPEN, level := 0, orig_line := 10, orig_col := 1 }

/-- An opening parenthesis at line 10, column 5, inside a preprocessor line. -/
def sample_paren : chunk_t :=
  { type := c_token_t.CT_PAREN_OPEN, level := 1, orig_line := 10, orig_col := 5,
    flags := { bits := 1 } }

/-- The constructed frame. -/
def sample_frame1 : ParseFrame :=
  ParseFrame.ParseFrame sample_raw

/-- The constructed frame after a push of the brace with stage 3. -/
def sample_frame2 : ParseFrame :=
  { sample_frame1 with pse := [genDummy, pushed_entry genDummy sample_brace 3] }

/-- The frame after a further push of the parenthesis with stage 2. -/
def sample_frame3 : ParseFrame :=
  { sample_frame1 with
    pse := [genDummy, pushed_entry genDummy sample_brace 3,
      pushed_entry (pushed_entry genDummy sample_brace 3) sample_paren 2] }

/-- A frame whose only entry has `indent_tab` 8 and `indent_cont` set. -/
def sample_frame_cont : ParseFrame :=
  { sample_frame1 with pse := [{ genDummy with indent_tab := 8, indent_cont := true }] }

/-- A call that changes the stack: a token push, the dummy push, or `pop`. -/
inductive stack_call where
  | push (pc : chunk_t) (stage : brace_stage_e)
  | push_nullptr (stage : brace_stage_e)
  | pop

/-- One stack call made on a frame. -/
def stack_call.run (f : ParseFrame) : stack_call → Except Failure ParseFrame
  | stack_call.push pc stage => f.push pc stage
  | stack_call.push_nullptr stage => f.push_nullptr stage
  | stack_call.pop => f.pop

/-- A sequence of stack calls made one after the other, first to last. -/
def run_calls (f : ParseFrame) : List stack_call → Except Failure ParseFrame
  | [] => pure f
  | c :: rest => do
    let f ← stack_call.run f c
    run_calls f rest

/-- The scan-wide counters of two frames agree. -/
def same_counters (f g : ParseFrame) : Prop :=
  g.ref_no = f.ref_no ∧ g.level = f.level ∧ g.brace_level = f.brace_level ∧
    g.pp_level = f.pp_level ∧ g.sparen_count = f.sparen_count ∧
    g.paren_count = f.paren_count ∧ g.stmt_count = f.stmt_count ∧
    g.expr_count = f.expr_count ∧ g.in_ifdef = f.in_ifdef

/-- The class of a C++ exception thrown by the core: `std::out_of_range` comes
from `std::vector::at`, `std::invalid_argument` from the `throw` statements of
`prev`. -/
inductive exception_kind where
  | std_out_of_range
  | std_invalid_argument
  deriving DecidableEq

/-- The exception a failure throws; undefined behaviour throws none. -/
def Failure.thrown : Failure → Option exception_kind
  | Failure.out_of_range => some exception_kind.std_out_of_range
  | Failure.invalid_argument _ => some exception_kind.std_invalid_argument
  | Failure.undefined_behaviour => none

/-- A frame of size 2 whose counters the analyzer has written. -/
def sample_frame_counted : ParseFrame :=
  { sample_frame2 with
    ref_no := 4, level := 2, brace_level := 1, pp_level := 1, sparen_count := 3,
    paren_count := 6, in_ifdef := c_token_t.CT_OTHER 7, stmt_count := 11,
    expr_count := 12 }

/-- Two pushes, one of them the dummy push, and four pops: the last two pops
find a single entry. -/
def sample_calls : List stack_call :=
  [stack_call.push sample_paren 2, stack_call.push_nullptr 1, stack_call.pop,
    stack_call.pop, stack_call.pop, stack_call.pop]

/-! ## Helper lemmas -/

theorem deref_prev_end_concat (l : List paren_stack_entry_t) (e : paren_stack_entry_t) :
    deref_prev_end (l ++ [e]) 1 = Except.ok e := by
  simp [deref_prev_end]

theorem deref_prev_end_nil (n : Nat) :
    deref_prev_end [] n = Except.error Failure.undefined_behaviour := by
  unfold deref_prev_end
  by_cases h : n = 0 <;> simp [h]

theorem exists_concat_of_size_pos (f : ParseFrame) (h : 1 ≤ f.size) :
    ∃ l e, f.pse = l ++ [e] := by
  have hne : f.pse ≠ [] := by
    intro h0
    simp [ParseFrame.size, h0] at h
  exact ⟨f.pse.dropLast, f.pse.getLast hne, (List.dropLast_append_getLast hne).symm⟩

theorem top_of_concat (f : ParseFrame) (l : List paren_stack_entry_t)
    (e : paren_stack_entry_t) (h : f.pse = l ++ [e]) : f.top = Except.ok e := by
  simp [ParseFrame.top, h, deref_prev_end_concat]

theorem push_of_concat (f : ParseFrame) (l : List paren_stack_entry_t)
    (e : paren_stack_entry_t) (h : f.pse = l ++ [e]) (pc : chunk_t) (stage : brace_stage_e) :
    f.push pc stage = Except.ok { f with pse := f.pse ++ [pushed_entry e pc stage] } := by
  have ht := top_of_concat f l e h
  simp only [ParseFrame.push, ht]
  rfl

theorem pop_of_concat (f : ParseFrame) (l : List paren_stack_entry_t)
    (e : paren_stack_entry_t) (h : f.pse = l ++ [e]) :
    f.pop = Except.ok
      (if l = [] then { f with last_poped := e, pse := [genDummy] }
       else { f with last_poped := e, pse := l }) := by
  simp only [ParseFrame.pop, h, deref_prev_end_concat]
  cases l with
  | nil => rfl
  | cons a l =>
    have hd : (a :: (l ++ [e])).dropLast = a :: l := by
      rw [← List.cons_append, List.dropLast_concat]
    simp [bind, Except.bind, pure, Except.pure, hd]

theorem size_of_push_ok {f g : ParseFrame} {pc : chunk_t} {stage : brace_stage_e}
    (h : f.push pc stage = Except.ok g) : g.size = f.size + 1 := by
  unfold ParseFrame.push at h
  cases ht : f.top with
  | error x => simp [ht, bind, Except.bind] at h
  | ok t =>
    simp only [ht, bind, Except.bind, pure, Except.pure] at h
    injection h with h
    subst h
    simp [ParseFrame.size]

theorem size_of_top_write_ok {f g : ParseFrame}
    {w : paren_stack_entry_t → paren_stack_entry_t}
    (h : f.top_write w = Except.ok g) : g.size = f.size := by
  unfold ParseFrame.top_write at h
  cases ht : f.top with
  | error x => simp [ht, bind, Except.bind] at h
  | ok t =>
    simp only [ht, bind, Except.bind, pure, Except.pure] at h
    injection h with h
    subst h
    simp [ParseFrame.size]

theorem size_of_prev_write_ok {f g : ParseFrame} {idx : Nat}
    {w : paren_stack_entry_t → paren_stack_entry_t}
    (h : f.prev_write idx w = Except.ok g) : g.size = f.size := by
  unfold ParseFrame.prev_write at h
  cases ht : f.prev idx with
  | error x => simp [ht, bind, Except.bind] at h
  | ok t =>
    simp only [ht, bind, Except.bind, pure, Except.pure] at h
    injection h with h
    subst h
    simp [ParseFrame.size]

theorem size_of_at_write_ok {f g : ParseFrame} {idx : Nat}
    {w : paren_stack_entry_t → paren_stack_entry_t}
    (h : f.at_write idx w = Except.ok g) : g.size = f.size := by
  unfold ParseFrame.at_write at h
  cases ht : f.at idx with
  | error x => simp [ht, bind, Except.bind] at h
  | ok t =>
    simp only [ht, bind, Except.bind, pure, Except.pure] at h
    injection h with h
    subst h
    simp [ParseFrame.size]

theorem size_of_push_nullptr_ok {f g : ParseFrame} {stage : brace_stage_e}
    (h : f.push_nullptr stage = Except.ok g) : g.size = f.size + 1 := by
  unfold ParseFrame.push_nullptr at h
  cases hp : f.push dummy stage with
  | error x => simp [hp, bind, Except.bind] at h
  | ok m =>
    simp only [hp, bind, Except.bind] at h
    rw [size_of_top_write_ok h, size_of_push_ok hp]

theorem size_pos_of_pop_ok {f g : ParseFrame} (h : f.pop = Except.ok g) : 1 ≤ g.size := by
  by_cases hs : 1 ≤ f.size
  · obtain ⟨l, e, hl⟩ := exists_concat_of_size_pos f hs
    rw [pop_of_concat f l e hl] at h
    injection h with h
    subst h
    by_cases hn : l = []
    · simp [hn, ParseFrame.size]
    · have : 0 < l.length := List.length_pos.mpr hn
      simp [hn, ParseFrame.size]
      omega
  · have h0 : f.pse = [] := by
      simp [ParseFrame.size] at hs
      exact hs
    simp [ParseFrame.pop, h0, deref_prev_end_nil, bind, Except.bind] at h

theorem size_clear (f : ParseFrame) : f.clear.size = 1 := rfl

theorem reachable_size_pos {f : ParseFrame} (h : Reachable f) : 1 ≤ f.size := by
  induction h with
  | construct raw => exact Nat.le_of_eq (size_clear raw).symm
  | clear _ _ => exact Nat.le_of_eq (size_clear _).symm
  | push pc stage _ hp _ => rw [size_of_push_ok hp]; omega
  | push_nullptr stage _ hp _ => rw [size_of_push_nullptr_ok hp]; omega
  | pop _ hp _ => exact size_pos_of_pop_ok hp
  | top_write w _ hp ih => rw [size_of_top_write_ok hp]; exact ih
  | prev_write idx w _ hp ih => rw [size_of_prev_write_ok hp]; exact ih
  | at_write idx w _ hp ih => rw [size_of_at_write_ok hp]; exact ih

theorem at_zero_of_size_pos (f : ParseFrame) (h : 1 ≤ f.size) : ∃ e, f.at 0 = Except.ok e := by
  cases hp : f.pse with
  | nil => simp [ParseFrame.size, hp] at h
  | cons a l => exact ⟨a, by simp [ParseFrame.at, hp]⟩

theorem top_write_of_concat (f : ParseFrame) (l : List paren_stack_entry_t)
    (e : paren_stack_entry_t) (h : f.pse = l ++ [e])
    (w : paren_stack_entry_t → paren_stack_entry_t) :
    f.top_write w = Except.ok { f with pse := l ++ [w e] } := by
  have ht := top_of_concat f l e h
  simp [ParseFrame.top_write, ht, bind, Except.bind, pure, Except.pure, h]

theorem push_nullptr_of_concat (f : ParseFrame) (l : List paren_stack_entry_t)
    (e : paren_stack_entry_t) (h : f.pse = l ++ [e]) (stage : brace_stage_e) :
    f.push_nullptr stage = Except.ok
      { f with pse := f.pse ++ [{ pushed_entry e dummy stage with pc := none }] } := by
  unfold ParseFrame.push_nullptr
  rw [push_of_concat f l e h dummy stage]
  simp only [bind, Except.bind]
  rw [top_write_of_concat _ (f.pse) (pushed_entry e dummy stage) rfl]

/-! ## The claims -/

/-- C1 (Invariant I1): every frame reachable from construction by `clear`, the
two pushes, `pop` and writes through `top`/`prev`/`at` references has at least
one entry, so `top()` is defined and `at(0)` succeeds there; moreover `pop` and
both pushes return on it (they never run into an empty vector). -/
theorem C1_reachable_non_empty (f : ParseFrame) (h : Reachable f) :
    1 ≤ f.size ∧ (∃ e, f.top = Except.ok e) ∧ (∃ e, f.at 0 = Except.ok e) ∧
      (∃ g, f.pop = Except.ok g) ∧
      (∀ pc stage, ∃ g, f.push pc stage = Except.ok g) ∧
      (∀ stage, ∃ g, f.push_nullptr stage = Except.ok g) := by
  have hs := reachable_size_pos h
  obtain ⟨l, e, hl⟩ := exists_concat_of_size_pos f hs
  refine ⟨hs, ⟨e, top_of_concat f l e hl⟩, at_zero_of_size_pos f hs, ?_, ?_, ?_⟩
  · exact ⟨_, pop_of_concat f l e hl⟩
  · intro pc stage
    exact ⟨_, push_of_concat f l e hl pc stage⟩
  · intro stage
    exact ⟨_, push_nullptr_of_concat f l e hl stage⟩

/-- Witness of C1: the frame after construction and one push of a brace token
is reachable, and the conclusions of C1 hold of it. -/
theorem C1_reachable_non_empty_witness :
    Reachable sample_frame2 ∧
      (1 ≤ sample_frame2.size ∧ (∃ e, sample_frame2.top = Except.ok e) ∧
        (∃ e, sample_frame2.at 0 = Except.ok e) ∧
        (∃ g, sample_frame2.pop = Except.ok g) ∧
        (∀ pc stage, ∃ g, sample_frame2.push pc stage = Except.ok g) ∧
        (∀ stage, ∃ g, sample_frame2.push_nullptr stage = Except.ok g)) :=
  ⟨Reachable.push sample_brace 3 (Reachable.construct sample_raw) (by decide),
    C1_reachable_non_empty sample_frame2
      (Reachable.push sample_brace 3 (Reachable.construct sample_raw) (by decide))⟩

/-- C2 (sentinel invariant): right after construction, and after `clear` on any
frame, `size()` is 1 and `top()` is the sentinel, whose `indent`, `indent_tmp`
and `indent_tab` are 1, whose `type` is `CT_EOF` and whose other fields have
their zero values. -/
theorem C2_sentinel_after_clear (raw f : ParseFrame) :
    (ParseFrame.ParseFrame raw).size = 1 ∧
      (ParseFrame.ParseFrame raw).top = Except.ok genDummy ∧
      f.clear.size = 1 ∧ f.clear.top = Except.ok genDummy ∧
      genDummy =
        { type := c_token_t.CT_EOF, level := 0, open_line := 0, open_colu := 0,
          pc := none, indent := 1, indent_tmp := 1, indent_tab := 1,
          indent_cont := false, stage := 0, in_preproc := false,
          non_vardef := false, ip := { ref := none, delta := 0 } } :=
  ⟨rfl, rfl, rfl, rfl, rfl⟩

/-- C3 (pop preserves non-empty): on a frame with at least one entry `pop`
returns; if `size()` was 1 it is 1 afterwards, and if it was larger than 1 it
is exactly one less afterwards. -/
theorem C3_pop_size (f : ParseFrame) (h : 1 ≤ f.size) :
    ∃ g, f.pop = Except.ok g ∧ (f.size = 1 → g.size = 1) ∧
      (1 < f.size → g.size = f.size - 1) := by
  obtain ⟨l, e, hl⟩ := exists_concat_of_size_pos f h
  refine ⟨_, pop_of_concat f l e hl, ?_, ?_⟩
  · intro h1
    have hn : l = [] := by
      simp [ParseFrame.size, hl] at h1
      exact h1
    simp [hn, ParseFrame.size]
  · intro h1
    have hn : l ≠ [] := by
      intro h0
      simp [ParseFrame.size, hl, h0] at h1
    simp [hn, ParseFrame.size, hl]

/-- Witness of C3: a frame of size 2. -/
theorem C3_pop_size_witness :
    1 ≤ sample_frame2.size ∧
      ∃ g, sample_frame2.pop = Except.ok g ∧ (sample_frame2.size = 1 → g.size = 1) ∧
        (1 < sample_frame2.size → g.size = sample_frame2.size - 1) :=
  ⟨by decide, C3_pop_size sample_frame2 (by decide)⟩

/-- C4 (last-popped fidelity): on a frame with at least one entry, `top()`
returns an entry `e`, `pop` returns, and right after it `poped()` is `e`,
whatever `poped()` was before; when `size()` was 1, `e` is the only entry
`at(0)` as it was before the reset to the sentinel. -/
theorem C4_poped_is_old_top (f : ParseFrame) (h : 1 ≤ f.size) :
    ∃ e g, f.top = Except.ok e ∧ f.pop = Except.ok g ∧ g.poped = e ∧
      (f.size = 1 → f.at 0 = Except.ok e) := by
  obtain ⟨l, e, hl⟩ := exists_concat_of_size_pos f h
  refine ⟨e, _, top_of_concat f l e hl, pop_of_concat f l e hl, ?_, ?_⟩
  · by_cases hn : l = [] <;> simp [hn, ParseFrame.poped]
  · intro h1
    have hn : l = [] := by
      simp [ParseFrame.size, hl] at h1
      exact h1
    simp [ParseFrame.at, hl, hn]

/-- Witness of C4: a frame of size 3 whose `poped()` is the sentinel. -/
theorem C4_poped_is_old_top_witness :
    1 ≤ sample_frame3.size ∧
      ∃ e g, sample_frame3.top = Except.ok e ∧ sample_frame3.pop = Except.ok g ∧
        g.poped = e ∧ (sample_frame3.size = 1 → sample_frame3.at 0 = Except.ok e) :=
  ⟨by decide, C4_poped_is_old_top sample_frame3 (by decide)⟩

theorem push_all_appends (ps : List (chunk_t × brace_stage_e)) :
    ∀ (f : ParseFrame), 1 ≤ f.size →
      ∃ g es, push_all f ps = Except.ok g ∧ g.pse = f.pse ++ es ∧
        es.length = ps.length := by
  induction ps with
  | nil =>
    intro f _
    exact ⟨f, [], rfl, by simp, rfl⟩
  | cons p rest ih =>
    intro f hf
    obtain ⟨pc, stage⟩ := p
    obtain ⟨l, e, hl⟩ := exists_concat_of_size_pos f hf
    have hp := push_of_concat f l e hl pc stage
    have hs : 1 ≤ ({ f with pse := f.pse ++ [pushed_entry e pc stage] } : ParseFrame).size := by
      simp [ParseFrame.size]
    obtain ⟨g, es, hg, hpse, hlen⟩ := ih _ hs
    refine ⟨g, pushed_entry e pc stage :: es, ?_, ?_, ?_⟩
    · simp only [push_all, hp, bind, Except.bind]
      exact hg
    · simp [hpse]
    · simp [hlen]

theorem pop_times_removes (n : Nat) :
    ∀ (f : ParseFrame) (base es : List paren_stack_entry_t), base ≠ [] →
      f.pse = base ++ es → es.length = n →
      ∃ g, pop_times f n = Except.ok g ∧ g.pse = base := by
  induction n with
  | zero =>
    intro f base es _ hpse hlen
    have : es = [] := List.length_eq_zero.mp hlen
    exact ⟨f, rfl, by simp [hpse, this]⟩
  | succ n ih =>
    intro f base es hb hpse hlen
    have hne : es ≠ [] := by
      intro h0
      simp [h0] at hlen
    have hes := (List.dropLast_append_getLast hne).symm
    have hpse2 : f.pse = (base ++ es.dropLast) ++ [es.getLast hne] := by
      rw [List.append_assoc, ← hes]
      exact hpse
    have hp := pop_of_concat f _ _ hpse2
    have hbn : base ++ es.dropLast ≠ [] := by
      simp [hb]
    rw [if_neg hbn] at hp
    have hlen2 : es.dropLast.length = n := by
      simp [hlen]
    obtain ⟨g, hg, hgp⟩ :=
      ih { f with last_poped := es.getLast hne, pse := base ++ es.dropLast }
        base es.dropLast hb rfl hlen2
    refine ⟨g, ?_, hgp⟩
    simp only [pop_times, hp, bind, Except.bind]
    exact hg

/-- C5 (push/pop symmetry): from a freshly cleared frame, the pushes of any list
of N (token, stage) pairs all return, the N pops that follow all return, and
the frame that results has `size()` 1 and the original sentinel as `top()`. -/
theorem C5_push_pop_symmetry (f0 : ParseFrame) (ps : List (chunk_t × brace_stage_e)) :
    ∃ f1 f2, push_all f0.clear ps = Except.ok f1 ∧
      pop_times f1 ps.length = Except.ok f2 ∧
      f2.size = 1 ∧ f2.top = Except.ok genDummy ∧ f0.clear.top = Except.ok genDummy := by
  obtain ⟨f1, es, h1, hpse, hlen⟩ :=
    push_all_appends ps f0.clear (Nat.le_of_eq (size_clear f0).symm)
  have hbase : f0.clear.pse = [genDummy] := rfl
  rw [hbase] at hpse
  obtain ⟨f2, h2, hpse2⟩ :=
    pop_times_removes ps.length f1 [genDummy] es (by simp) hpse hlen
  refine ⟨f1, f2, h1, h2, ?_, ?_, rfl⟩
  · simp [ParseFrame.size, hpse2]
  · exact top_of_concat f2 [] genDummy (by simp [hpse2])

/-- C6 (push populates the new top from the token): on a frame with at least
one entry, `push(pc, stage)` for a non-null token returns, `size()` grows by
exactly 1, and the new `top()` has `type`, `level`, `open_line`, `open_colu`
and `pc` taken from the token, the supplied `stage`, `in_preproc` equal to the
token's `PCF_IN_PREPROC` flag, and `non_vardef` false. -/
theorem C6_push_populates_top (f : ParseFrame) (pc : chunk_t) (stage : brace_stage_e)
    (h : 1 ≤ f.size) :
    ∃ g t, f.push pc stage = Except.ok g ∧ g.size = f.size + 1 ∧ g.top = Except.ok t ∧
      t.type = pc.type ∧ t.level = pc.level ∧ t.open_line = pc.orig_line ∧
      t.open_colu = pc.orig_col ∧ t.pc = some pc ∧ t.stage = stage ∧
      t.in_preproc = pc.flags.test PCF_IN_PREPROC ∧ t.non_vardef = false := by
  obtain ⟨l, e, hl⟩ := exists_concat_of_size_pos f h
  refine ⟨_, pushed_entry e pc stage, push_of_concat f l e hl pc stage, ?_, ?_,
    rfl, rfl, rfl, rfl, rfl, rfl, rfl, rfl⟩
  · simp [ParseFrame.size]
  · exact top_of_concat _ f.pse _ rfl

/-- Witness of C6: the parenthesis token, which carries the preprocessor flag,
pushed on a frame of size 2. -/
theorem C6_push_populates_top_witness :
    1 ≤ sample_frame2.size ∧
      ∃ g t, sample_frame2.push sample_paren 2 = Except.ok g ∧
        g.size = sample_frame2.size + 1 ∧ g.top = Except.ok t ∧
        t.type = sample_paren.type ∧ t.level = sample_paren.level ∧
        t.open_line = sample_paren.orig_line ∧ t.open_colu = sample_paren.orig_col ∧
        t.pc = some sample_paren ∧ t.stage = 2 ∧
        t.in_preproc = sample_paren.flags.test PCF_IN_PREPROC ∧ t.non_vardef = false :=
  ⟨by decide, C6_push_populates_top sample_frame2 sample_paren 2 (by decide)⟩

/-- C7 (inheritance on push, Invariant I3): on a frame with at least one entry,
whose top is `e`, a push of any token with any stage returns and the new top
has the `indent_tab` and `indent_cont` of `e`; the same holds of the dummy
push. -/
theorem C7_push_inherits (f : ParseFrame) (pc : chunk_t) (stage : brace_stage_e)
    (h : 1 ≤ f.size) :
    ∃ e, f.top = Except.ok e ∧
      (∃ g t, f.push pc stage = Except.ok g ∧ g.top = Except.ok t ∧
        t.indent_tab = e.indent_tab ∧ t.indent_cont = e.indent_cont) ∧
      (∃ g t, f.push_nullptr stage = Except.ok g ∧ g.top = Except.ok t ∧
        t.indent_tab = e.indent_tab ∧ t.indent_cont = e.indent_cont) := by
  obtain ⟨l, e, hl⟩ := exists_concat_of_size_pos f h
  refine ⟨e, top_of_concat f l e hl, ?_, ?_⟩
  · exact ⟨_, pushed_entry e pc stage, push_of_concat f l e hl pc stage,
      top_of_concat _ f.pse _ rfl, rfl, rfl⟩
  · exact ⟨_, { pushed_entry e dummy stage with pc := none },
      push_nullptr_of_concat f l e hl stage, top_of_concat _ f.pse _ rfl, rfl, rfl⟩

/-- Witness of C7: a frame whose top has `indent_tab` 8 and `indent_cont` set. -/
theorem C7_push_inherits_witness :
    1 ≤ sample_frame_cont.size ∧
      ∃ e, sample_frame_cont.top = Except.ok e ∧
        (∃ g t, sample_frame_cont.push sample_paren 4 = Except.ok g ∧
          g.top = Except.ok t ∧
          t.indent_tab = e.indent_tab ∧ t.indent_cont = e.indent_cont) ∧
        (∃ g t, sample_frame_cont.push_nullptr 4 = Except.ok g ∧ g.top = Except.ok t ∧
          t.indent_tab = e.indent_tab ∧ t.indent_cont = e.indent_cont) :=
  ⟨by decide, C7_push_inherits sample_frame_cont sample_paren 4 (by decide)⟩

theorem at_append_left (f g : ParseFrame) (x : paren_stack_entry_t)
    (hg : g.pse = f.pse ++ [x]) (i : Nat) (hi : i < f.size) : g.at i = f.at i := by
  have hi2 : i < f.pse.length := hi
  simp [ParseFrame.at, hg, List.getElem?_append_left hi2]

theorem prev_eq_at (f : ParseFrame) (idx : Nat) (h0 : idx ≠ 0) (h1 : idx < f.size) :
    ∃ e, f.prev idx = Except.ok e ∧ f.at (f.size - 1 - idx) = Except.ok e := by
  have hlen : idx < f.pse.length := h1
  have hi : f.pse.length - (idx + 1) < f.pse.length := by omega
  refine ⟨f.pse[f.pse.length - (idx + 1)], ?_, ?_⟩
  · have hnot : ¬ (f.pse.length ≤ idx) := by omega
    have hnot2 : ¬ (f.pse.length < idx + 1) := by omega
    simp [ParseFrame.prev, h0, hnot, deref_prev_end, hnot2, List.getElem?_eq_getElem hi]
  · have hidx : f.size - 1 - idx = f.pse.length - (idx + 1) := by
      simp [ParseFrame.size]
      omega
    simp [ParseFrame.at, hidx, List.getElem?_eq_getElem hi]

/-- C8 (push is a pure append): on a frame of size n ≥ 1, after a push the
entry vector is the old one with one entry appended, so `at(i)` is what it was
for every i < n, the previous top is now `prev(1)`, and `poped()` is
unchanged. -/
theorem C8_push_pure_append (f : ParseFrame) (pc : chunk_t) (stage : brace_stage_e)
    (h : 1 ≤ f.size) :
    ∃ g t, f.push pc stage = Except.ok g ∧ g.pse = f.pse ++ [t] ∧
      (∀ i, i < f.size → g.at i = f.at i) ∧ g.prev 1 = f.top ∧ g.poped = f.poped := by
  obtain ⟨l, e, hl⟩ := exists_concat_of_size_pos f h
  refine ⟨_, pushed_entry e pc stage, push_of_concat f l e hl pc stage, rfl, ?_, ?_, rfl⟩
  · intro i hi
    exact at_append_left f _ _ rfl i hi
  · rw [top_of_concat f l e hl]
    simp [ParseFrame.prev, hl, deref_prev_end]
    rw [List.getElem_append_right (Nat.le_refl _)]
    simp

/-- Witness of C8: a push on a frame of size 2. -/
theorem C8_push_pure_append_witness :
    1 ≤ sample_frame2.size ∧
      ∃ g t, sample_frame2.push sample_paren 2 = Except.ok g ∧
        g.pse = sample_frame2.pse ++ [t] ∧
        (∀ i, i < sample_frame2.size → g.at i = sample_frame2.at i) ∧
        g.prev 1 = sample_frame2.top ∧ g.poped = sample_frame2.poped :=
  ⟨by decide, C8_push_pure_append sample_frame2 sample_paren 2 (by decide)⟩

theorem prev_error_iff (f : ParseFrame) (idx : Nat) :
    (∃ x, f.prev idx = Except.error x) ↔ (idx = 0 ∨ idx ≥ f.size) := by
  constructor
  · rintro ⟨x, hx⟩
    by_contra hcon
    push_neg at hcon
    obtain ⟨e, he, _⟩ := prev_eq_at f idx hcon.1 hcon.2
    rw [he] at hx
    cases hx
  · intro h
    by_cases h0 : idx = 0
    · exact ⟨Failure.invalid_argument 73, by simp [ParseFrame.prev, h0]⟩
    · have h1 : f.pse.length ≤ idx := by
        rcases h with h | h
        · exact absurd h h0
        · exact h
      exact ⟨Failure.invalid_argument 80, by simp [ParseFrame.prev, h0, h1]⟩

/-- C9 (prev bounds and result): `prev(idx)` fails exactly when `idx == 0` or
`idx >= size()`; for `1 <= idx <= size() - 1` it returns the entry `idx` places
below the top, the one `at(size() - 1 - idx)` returns; so on a frame of size at
least 2, `prev(1)` is the entry just below the top and `prev(size() - 1)` is the
bottom entry `at(0)`. -/
theorem C9_prev_bounds (f : ParseFrame) (idx : Nat) :
    ((∃ x, f.prev idx = Except.error x) ↔ (idx = 0 ∨ idx ≥ f.size)) ∧
      (1 ≤ idx → idx ≤ f.size - 1 →
        ∃ e, f.prev idx = Except.ok e ∧ f.at (f.size - 1 - idx) = Except.ok e) ∧
      (2 ≤ f.size →
        (∃ e, f.prev 1 = Except.ok e ∧ f.at (f.size - 2) = Except.ok e) ∧
        (∃ e, f.prev (f.size - 1) = Except.ok e ∧ f.at 0 = Except.ok e)) := by
  refine ⟨prev_error_iff f idx, ?_, ?_⟩
  · intro h1 h2
    exact prev_eq_at f idx (by omega) (by omega)
  · intro h2
    constructor
    · obtain ⟨e, he, ha⟩ := prev_eq_at f 1 (by omega) (by omega)
      have hz : f.size - 1 - 1 = f.size - 2 := by omega
      exact ⟨e, he, by rw [← ha, hz]⟩
    · obtain ⟨e, he, ha⟩ := prev_eq_at f (f.size - 1) (by omega) (by omega)
      refine ⟨e, he, ?_⟩
      have hz : f.size - 1 - (f.size - 1) = 0 := by omega
      rw [← ha, hz]

/-- Witness of C9: on a frame of size 3, `prev(2)` returns the bottom entry. -/
theorem C9_prev_bounds_witness :
    (1 ≤ 2 ∧ 2 ≤ sample_frame3.size - 1) ∧
      ∃ e, sample_frame3.prev 2 = Except.ok e ∧
        sample_frame3.at (sample_frame3.size - 1 - 2) = Except.ok e :=
  ⟨by decide, (C9_prev_bounds sample_frame3 2).2.1 (by decide) (by decide)⟩

/-- C10 (at bounds and result): `at(idx)` fails exactly when `idx >= size()`,
with the range error of the vector; for `idx < size()` it returns the entry at
position `idx` from the bottom; `at(size())` fails; and on a frame with at
least one entry `at(size() - 1)` succeeds and returns what `top()` returns. -/
theorem C10_at_bounds (f : ParseFrame) (idx : Nat) :
    ((∃ x, f.at idx = Except.error x) ↔ idx ≥ f.size) ∧
      (idx ≥ f.size → f.at idx = Except.error Failure.out_of_range) ∧
      (∀ h : idx < f.pse.length, f.at idx = Except.ok (f.pse.get ⟨idx, h⟩)) ∧
      f.at f.size = Except.error Failure.out_of_range ∧
      (1 ≤ f.size → ∃ e, f.at (f.size - 1) = Except.ok e ∧ f.top = Except.ok e) := by
  have hfail : ∀ i, i ≥ f.size → f.at i = Except.error Failure.out_of_range := by
    intro i hi
    have hi2 : f.pse.length ≤ i := hi
    simp [ParseFrame.at, List.getElem?_eq_none hi2]
  have hok : ∀ (i : Nat) (h : i < f.pse.length), f.at i = Except.ok (f.pse.get ⟨i, h⟩) := by
    intro i hi
    simp [ParseFrame.at, List.getElem?_eq_getElem hi]
  refine ⟨?_, hfail idx, hok idx, hfail f.size (Nat.le_refl _), ?_⟩
  · constructor
    · rintro ⟨x, hx⟩
      by_contra hcon
      have hlt : idx < f.pse.length := by
        simp [ParseFrame.size] at hcon
        exact hcon
      rw [hok idx hlt] at hx
      cases hx
    · intro h
      exact ⟨_, hfail idx h⟩
  · intro h
    obtain ⟨l, e, hl⟩ := exists_concat_of_size_pos f h
    refine ⟨e, ?_, top_of_concat f l e hl⟩
    simp [ParseFrame.at, ParseFrame.size, hl]

/-- Witness of C10: on a frame of size 3, `at(2)` is the top. -/
theorem C10_at_bounds_witness :
    1 ≤ sample_frame3.size ∧
      ∃ e, sample_frame3.at (sample_frame3.size - 1) = Except.ok e ∧
        sample_frame3.top = Except.ok e :=
  ⟨by decide, (C10_at_bounds sample_frame3 2).2.2.2.2 (by decide)⟩

theorem same_counters_refl (f : ParseFrame) : same_counters f f :=
  ⟨rfl, rfl, rfl, rfl, rfl, rfl, rfl, rfl, rfl⟩

theorem same_counters_trans {f g k : ParseFrame} (h1 : same_counters f g)
    (h2 : same_counters g k) : same_counters f k := by
  obtain ⟨a1, a2, a3, a4, a5, a6, a7, a8, a9⟩ := h1
  obtain ⟨b1, b2, b3, b4, b5, b6, b7, b8, b9⟩ := h2
  exact ⟨b1.trans a1, b2.trans a2, b3.trans a3, b4.trans a4, b5.trans a5,
    b6.trans a6, b7.trans a7, b8.trans a8, b9.trans a9⟩

theorem stack_call_run_step (f : ParseFrame) (c : stack_call) (h : 1 ≤ f.size) :
    ∃ g, stack_call.run f c = Except.ok g ∧ 1 ≤ g.size ∧ same_counters f g := by
  obtain ⟨l, e, hl⟩ := exists_concat_of_size_pos f h
  cases c with
  | push pc stage =>
    refine ⟨_, push_of_concat f l e hl pc stage, ?_, same_counters_refl f⟩
    simp [ParseFrame.size]
  | push_nullptr stage =>
    refine ⟨_, push_nullptr_of_concat f l e hl stage, ?_, same_counters_refl f⟩
    simp [ParseFrame.size]
  | pop =>
    have hp : stack_call.run f stack_call.pop = f.pop := rfl
    rw [hp]
    refine ⟨_, pop_of_concat f l e hl, size_pos_of_pop_ok (pop_of_concat f l e hl), ?_⟩
    by_cases hn : l = []
    · simp only [hn, if_true]
      exact same_counters_refl f
    · simp only [hn, if_false]
      exact same_counters_refl f

theorem run_calls_same_counters (cs : List stack_call) :
    ∀ (f : ParseFrame), 1 ≤ f.size →
      ∃ g, run_calls f cs = Except.ok g ∧ 1 ≤ g.size ∧ same_counters f g := by
  induction cs with
  | nil =>
    intro f hf
    exact ⟨f, rfl, hf, same_counters_refl f⟩
  | cons c rest ih =>
    intro f hf
    obtain ⟨m, hm, hms, hmc⟩ := stack_call_run_step f c hf
    obtain ⟨g, hg, hgs, hgc⟩ := ih m hms
    refine ⟨g, ?_, hgs, same_counters_trans hmc hgc⟩
    simp only [run_calls, hm, bind, Except.bind]
    exact hg

/-- C11 (counter isolation, Invariant I2): on a frame with at least one entry,
every sequence of token pushes, dummy pushes and pops runs to the end, and each
of `ref_no`, `level`, `brace_level`, `pp_level`, `sparen_count`, `paren_count`,
`stmt_count`, `expr_count` and `in_ifdef` has afterwards the value it had
before. -/
theorem C11_counters_untouched (f : ParseFrame) (cs : List stack_call) (h : 1 ≤ f.size) :
    ∃ g, run_calls f cs = Except.ok g ∧
      g.ref_no = f.ref_no ∧ g.level = f.level ∧ g.brace_level = f.brace_level ∧
      g.pp_level = f.pp_level ∧ g.sparen_count = f.sparen_count ∧
      g.paren_count = f.paren_count ∧ g.stmt_count = f.stmt_count ∧
      g.expr_count = f.expr_count ∧ g.in_ifdef = f.in_ifdef := by
  obtain ⟨g, hg, _, hc⟩ := run_calls_same_counters cs f h
  exact ⟨g, hg, hc⟩

/-- Witness of C11: a frame with non-zero counters and a call sequence that
pushes twice and pops four times. -/
theorem C11_counters_untouched_witness :
    1 ≤ sample_frame_counted.size ∧
      ∃ g, run_calls sample_frame_counted sample_calls = Except.ok g ∧
        g.ref_no = sample_frame_counted.ref_no ∧ g.level = sample_frame_counted.level ∧
        g.brace_level = sample_frame_counted.brace_level ∧
        g.pp_level = sample_frame_counted.pp_level ∧
        g.sparen_count = sample_frame_counted.sparen_count ∧
        g.paren_count = sample_frame_counted.paren_count ∧
        g.stmt_count = sample_frame_counted.stmt_count ∧
        g.expr_count = sample_frame_counted.expr_count ∧
        g.in_ifdef = sample_frame_counted.in_ifdef :=
  ⟨by decide, C11_counters_untouched sample_frame_counted sample_calls (by decide)⟩

/-- C12 (clear resets everything): after `clear` on any frame, `poped()` is a
fresh sentinel, the eight integer counters are 0 and `in_ifdef` is `CT_NONE`;
the result of `clear` is the same frame for every input, and it is the newly
constructed frame. -/
theorem C12_clear_resets_all (f g raw : ParseFrame) :
    f.clear.poped = genDummy ∧ f.clear.ref_no = 0 ∧ f.clear.level = 0 ∧
      f.clear.brace_level = 0 ∧ f.clear.pp_level = 0 ∧ f.clear.sparen_count = 0 ∧
      f.clear.paren_count = 0 ∧ f.clear.stmt_count = 0 ∧ f.clear.expr_count = 0 ∧
      f.clear.in_ifdef = c_token_t.CT_NONE ∧ f.clear.pse = [genDummy] ∧
      f.clear = g.clear ∧ f.clear = ParseFrame.ParseFrame raw :=
  ⟨rfl, rfl, rfl, rfl, rfl, rfl, rfl, rfl, rfl, rfl, rfl, rfl, rfl⟩

/-- C13 (pop on a single-entry frame resets in place): on a frame with exactly
one entry, whatever its fields hold, `pop` returns and leaves exactly one entry,
the fresh sentinel `genDummy` (spelled out in C2), which is then `at(0)` and
`top()`. -/
theorem C13_pop_single_resets (f : ParseFrame) (h : f.size = 1) :
    ∃ g, f.pop = Except.ok g ∧ g.pse = [genDummy] ∧ g.size = 1 ∧
      g.at 0 = Except.ok genDummy ∧ g.top = Except.ok genDummy ∧
      genDummy =
        { type := c_token_t.CT_EOF, level := 0, open_line := 0, open_colu := 0,
          pc := none, indent := 1, indent_tmp := 1, indent_tab := 1,
          indent_cont := false, stage := 0, in_preproc := false,
          non_vardef := false, ip := { ref := none, delta := 0 } } := by
  obtain ⟨l, e, hl⟩ := exists_concat_of_size_pos f (Nat.le_of_eq h.symm)
  have hn : l = [] := by
    simp [ParseFrame.size, hl] at h
    exact h
  refine ⟨_, pop_of_concat f l e hl, ?_, ?_, ?_, ?_, rfl⟩
  · simp [hn]
  · simp [hn, ParseFrame.size]
  · simp [hn, ParseFrame.at]
  · simp [hn, ParseFrame.top, deref_prev_end]

/-- Witness of C13: a frame whose only entry has been written by the analyzer
(`indent_tab` 8, `indent_cont` set). -/
theorem C13_pop_single_resets_witness :
    sample_frame_cont.size = 1 ∧
      ∃ g, sample_frame_cont.pop = Except.ok g ∧ g.pse = [genDummy] ∧ g.size = 1 ∧
        g.at 0 = Except.ok genDummy ∧ g.top = Except.ok genDummy ∧
        genDummy =
          { type := c_token_t.CT_EOF, level := 0, open_line := 0, open_colu := 0,
            pc := none, indent := 1, indent_tmp := 1, indent_tab := 1,
            indent_cont := false, stage := 0, in_preproc := false,
            non_vardef := false, ip := { ref := none, delta := 0 } } :=
  ⟨by decide, C13_pop_single_resets sample_frame_cont (by decide)⟩

theorem prev_one_of_concat (f : ParseFrame) (l : List paren_stack_entry_t)
    (e x : paren_stack_entry_t) (h : f.pse = l ++ [e] ++ [x]) :
    f.prev 1 = Except.ok e := by
  simp [ParseFrame.prev, h, deref_prev_end]
  rw [List.getElem_append_right (Nat.le_refl _)]
  simp

/-- C14 (pop on a frame of size n > 1 removes only the top): `pop` returns, the
size is n - 1, the entry vector is the old one without its last entry, so
`at(i)` is what it was for every i ≤ n - 2, and the new `top()` is the entry
that `prev(1)` returned before the call. -/
theorem C14_pop_removes_top_only (f : ParseFrame) (h : 1 < f.size) :
    ∃ g, f.pop = Except.ok g ∧ g.size = f.size - 1 ∧
      g.pse = f.pse.take (f.size - 1) ∧
      (∀ i, i < f.size - 1 → g.at i = f.at i) ∧
      (∃ e, f.prev 1 = Except.ok e ∧ g.top = Except.ok e) := by
  obtain ⟨l, e, hl⟩ := exists_concat_of_size_pos f (Nat.le_of_lt h)
  have hn : l ≠ [] := by
    intro h0
    simp [ParseFrame.size, hl, h0] at h
  have hp := pop_of_concat f l e hl
  rw [if_neg hn] at hp
  have hsz : f.size - 1 = l.length := by
    simp [ParseFrame.size, hl]
  refine ⟨_, hp, ?_, ?_, ?_, ?_⟩
  · simp [ParseFrame.size, hl]
  · rw [hsz]
    simp [hl]
  · intro i hi
    rw [hsz] at hi
    exact (at_append_left { f with last_poped := e, pse := l } f e hl i hi).symm
  · have hl2 := (List.dropLast_append_getLast hn).symm
    refine ⟨l.getLast hn, ?_, ?_⟩
    · apply prev_one_of_concat f l.dropLast (l.getLast hn) e
      rw [← hl2]
      exact hl
    · exact top_of_concat _ l.dropLast (l.getLast hn) hl2

/-- Witness of C14: a pop on a frame of size 3. -/
theorem C14_pop_removes_top_only_witness :
    1 < sample_frame3.size ∧
      ∃ g, sample_frame3.pop = Except.ok g ∧ g.size = sample_frame3.size - 1 ∧
        g.pse = sample_frame3.pse.take (sample_frame3.size - 1) ∧
        (∀ i, i < sample_frame3.size - 1 → g.at i = sample_frame3.at i) ∧
        (∃ e, sample_frame3.prev 1 = Except.ok e ∧ g.top = Except.ok e) :=
  ⟨by decide, C14_pop_removes_top_only sample_frame3 (by decide)⟩

theorem prev_error_thrown (f : ParseFrame) (idx : Nat) (x : Failure)
    (h : f.prev idx = Except.error x) :
    x.thrown = some exception_kind.std_invalid_argument := by
  by_cases h0 : idx = 0
  · simp [ParseFrame.prev, h0] at h
    subst h
    rfl
  · by_cases h1 : f.size ≤ idx
    · have h2 : f.pse.length ≤ idx := h1
      simp [ParseFrame.prev, h0, h2] at h
      subst h
      rfl
    · obtain ⟨e, he, _⟩ := prev_eq_at f idx h0 (by omega)
      rw [he] at h
      cases h

theorem at_error_out_of_range (f : ParseFrame) (idx : Nat) (x : Failure)
    (h : f.at idx = Except.error x) : x = Failure.out_of_range ∧ idx ≥ f.size := by
  unfold ParseFrame.at at h
  cases hg : f.pse[idx]? with
  | some e => simp [hg] at h
  | none =>
    simp only [hg] at h
    injection h with h
    refine ⟨h.symm, ?_⟩
    exact List.getElem?_eq_none_iff.mp hg

theorem at_error_of_ge (f : ParseFrame) (idx : Nat) (h : idx ≥ f.size) :
    f.at idx = Except.error Failure.out_of_range := by
  have h2 : f.pse.length ≤ idx := h
  simp [ParseFrame.at, List.getElem?_eq_none h2]

/-- C15 as stated fails: on the constructed frame, whose size is 1, `at(1)`
throws `std::out_of_range` while `prev(1)` throws `std::invalid_argument`; the
two failures are not of one kind. -/
theorem C15_error_kinds_differ :
    sample_frame1.size = 1 ∧
      sample_frame1.at 1 = Except.error Failure.out_of_range ∧
      sample_frame1.prev 1 = Except.error (Failure.invalid_argument 80) ∧
      Failure.thrown Failure.out_of_range = some exception_kind.std_out_of_range ∧
      Failure.thrown (Failure.invalid_argument 80) =
        some exception_kind.std_invalid_argument ∧
      Failure.thrown Failure.out_of_range ≠ Failure.thrown (Failure.invalid_argument 80) :=
  ⟨by decide, by decide, by decide, rfl, rfl, by decide⟩

/-- C15 as amended: the only failures of the core are those of `prev` and `at`,
raised exactly when the index is outside the valid window, and they are of two
kinds: `prev` throws `std::invalid_argument` (when `idx == 0` or
`idx >= size()`) and `at` throws `std::out_of_range` (when `idx >= size()`).
On every reachable frame `top`, `pop`, the token push and the dummy push
return, and `clear` and `size` return on every frame (they are total). -/
theorem C15_failures_two_kinds (f : ParseFrame) (idx : Nat) :
    (∀ x, f.prev idx = Except.error x →
        x.thrown = some exception_kind.std_invalid_argument ∧ (idx = 0 ∨ idx ≥ f.size)) ∧
      (∀ x, f.at idx = Except.error x →
        x.thrown = some exception_kind.std_out_of_range ∧ idx ≥ f.size) ∧
      ((idx = 0 ∨ idx ≥ f.size) → ∃ x, f.prev idx = Except.error x) ∧
      (idx ≥ f.size → ∃ x, f.at idx = Except.error x) ∧
      (Reachable f →
        (∃ e, f.top = Except.ok e) ∧ (∃ g, f.pop = Except.ok g) ∧
        (∀ pc stage, ∃ g, f.push pc stage = Except.ok g) ∧
        (∀ stage, ∃ g, f.push_nullptr stage = Except.ok g) ∧
        1 ≤ f.size ∧ f.clear.size = 1) := by
  refine ⟨?_, ?_, ?_, ?_, ?_⟩
  · intro x hx
    exact ⟨prev_error_thrown f idx x hx, (prev_error_iff f idx).mp ⟨x, hx⟩⟩
  · intro x hx
    obtain ⟨h1, h2⟩ := at_error_out_of_range f idx x hx
    subst h1
    exact ⟨rfl, h2⟩
  · intro h
    exact (prev_error_iff f idx).mpr h
  · intro h
    exact ⟨_, at_error_of_ge f idx h⟩
  · intro hr
    have hs := reachable_size_pos hr
    obtain ⟨l, e, hl⟩ := exists_concat_of_size_pos f hs
    refine ⟨⟨e, top_of_concat f l e hl⟩, ⟨_, pop_of_concat f l e hl⟩, ?_, ?_, hs, rfl⟩
    · intro pc stage
      exact ⟨_, push_of_concat f l e hl pc stage⟩
    · intro stage
      exact ⟨_, push_nullptr_of_concat f l e hl stage⟩

/-- Witness of C15 as amended: on the reachable frame of size 3, `prev(3)`
fails with `std::invalid_argument`, `at(3)` with `std::out_of_range`, and the
other operations return. -/
theorem C15_failures_two_kinds_witness :
    Reachable sample_frame3 ∧
      sample_frame3.prev 3 = Except.error (Failure.invalid_argument 80) ∧
      sample_frame3.at 3 = Except.error Failure.out_of_range ∧
      (Failure.thrown (Failure.invalid_argument 80) =
          some exception_kind.std_invalid_argument ∧ (3 = 0 ∨ 3 ≥ sample_frame3.size)) ∧
      (Failure.thrown Failure.out_of_range = some exception_kind.std_out_of_range ∧
        3 ≥ sample_frame3.size) ∧
      ((∃ e, sample_frame3.top = Except.ok e) ∧ (∃ g, sample_frame3.pop = Except.ok g) ∧
        (∀ pc stage, ∃ g, sample_frame3.push pc stage = Except.ok g) ∧
        (∀ stage, ∃ g, sample_frame3.push_nullptr stage = Except.ok g) ∧
        1 ≤ sample_frame3.size ∧ sample_frame3.clear.size = 1) :=
  have h2 : Reachable sample_frame2 :=
    Reachable.push sample_brace 3 (Reachable.construct sample_raw) (by decide)
  have hr : Reachable sample_frame3 :=
    Reachable.push sample_paren 2 h2 (by decide)
  ⟨hr, by decide, by decide,
    (C15_failures_two_kinds sample_frame3 3).1 _ (by decide),
    (C15_failures_two_kinds sample_frame3 3).2.1 _ (by decide),
    (C15_failures_two_kinds sample_frame3 3).2.2.2.2 hr⟩

/-- C16 (dummy push): on a frame with at least one entry, whose top is `e`,
`push(nullptr, stage)` returns, `size()` grows by exactly 1, the new `top()`
has a null `pc`, the supplied `stage` and the `indent_tab` and `indent_cont` of
`e`, and `at(i)` is what it was for every index of the old frame. -/
theorem C16_dummy_push (f : ParseFrame) (stage : brace_stage_e) (h : 1 ≤ f.size) :
    ∃ e g t, f.top = Except.ok e ∧ f.push_nullptr stage = Except.ok g ∧
      g.size = f.size + 1 ∧ g.top = Except.ok t ∧ t.pc = none ∧ t.stage = stage ∧
      t.indent_tab = e.indent_tab ∧ t.indent_cont = e.indent_cont ∧
      (∀ i, i < f.size → g.at i = f.at i) := by
  obtain ⟨l, e, hl⟩ := exists_concat_of_size_pos f h
  refine ⟨e, _, { pushed_entry e dummy stage with pc := none }, top_of_concat f l e hl,
    push_nullptr_of_concat f l e hl stage, ?_, top_of_concat _ f.pse _ rfl,
    rfl, rfl, rfl, rfl, ?_⟩
  · simp [ParseFrame.size]
  · intro i hi
    exact at_append_left f _ _ rfl i hi

/-- Witness of C16: a dummy push with stage 4 on a frame whose top has
`indent_tab` 8 and `indent_cont` set. -/
theorem C16_dummy_push_witness :
    1 ≤ sample_frame_cont.size ∧
      ∃ e g t, sample_frame_cont.top = Except.ok e ∧
        sample_frame_cont.push_nullptr 4 = Except.ok g ∧
        g.size = sample_frame_cont.size + 1 ∧ g.top = Except.ok t ∧ t.pc = none ∧
        t.stage = 4 ∧ t.indent_tab = e.indent_tab ∧ t.indent_cont = e.indent_cont ∧
        (∀ i, i < sample_frame_cont.size → g.at i = sample_frame_cont.at i) :=
  ⟨by decide, C16_dummy_push sample_frame_cont 4 (by decide)⟩

/-- C17 (empty is always false): `empty()` returns false on every frame, also on
a freshly cleared one that holds only the sentinel, and so returns the same on
any two frames. -/
theorem C17_empty_always_false (f g : ParseFrame) :
    f.empty = false ∧ f.clear.empty = false ∧ f.empty = g.empty :=
  ⟨rfl, rfl, rfl⟩

/-- C18 (end-to-end scenario): from a cleared frame (size 1), pushing the brace
token at line 10 column 1 gives size 2 and a top with `open_line` 10; pushing
the parenthesis token at line 10 column 5 gives size 3; one pop gives size 2
and `poped().open_colu` 5; a second pop gives size 1, `poped().open_line` 10
with `open_colu` 1, and the sentinel on top.  In general, for any tokens `a`
and `b` pushed in that order on a cleared frame, the two pops that follow
report through `poped()` first the entry pushed for `b`, then the entry pushed
for `a`, and leave the sentinel on top. -/
theorem C18_end_to_end (f0 : ParseFrame) (a b : chunk_t) (sa sb : brace_stage_e) :
    (∃ f1 f2 f3 f4 t, f0.clear.size = 1 ∧
      f0.clear.push sample_brace 3 = Except.ok f1 ∧ f1.size = 2 ∧
      f1.top = Except.ok t ∧ t.open_line = 10 ∧
      f1.push sample_paren 2 = Except.ok f2 ∧ f2.size = 3 ∧
      f2.pop = Except.ok f3 ∧ f3.size = 2 ∧ f3.poped.open_colu = 5 ∧
      f3.pop = Except.ok f4 ∧ f4.size = 1 ∧ f4.poped.open_line = 10 ∧
      f4.poped.open_colu = 1 ∧ f4.top = Except.ok genDummy) ∧
    (∃ f1 f2 f3 f4 ea eb,
      f0.clear.push a sa = Except.ok f1 ∧ f1.top = Except.ok ea ∧
      f1.push b sb = Except.ok f2 ∧ f2.top = Except.ok eb ∧
      f2.pop = Except.ok f3 ∧ f3.size = 2 ∧ f3.poped = eb ∧
      f3.pop = Except.ok f4 ∧ f4.size = 1 ∧ f4.poped = ea ∧
      f4.top = Except.ok genDummy ∧
      ea.pc = some a ∧ ea.open_line = a.orig_line ∧ ea.open_colu = a.orig_col ∧
      eb.pc = some b ∧ eb.open_line = b.orig_line ∧ eb.open_colu = b.orig_col) := by
  constructor
  · exact ⟨_, _, _, _, _, rfl, rfl, rfl, rfl, rfl, rfl, rfl, rfl, rfl, rfl, rfl, rfl, rfl,
      rfl, rfl⟩
  · exact ⟨_, _, _, _, _, _, rfl, rfl, rfl, rfl, rfl, rfl, rfl, rfl, rfl, rfl, rfl, rfl,
      rfl, rfl, rfl, rfl, rfl⟩

/-- C19 (push-then-pop round trip): on a frame `f` with at least one entry,
whose top is `e`, a push followed at once by a pop returns a frame with the
entry vector of `f` (same size, same `at(i)` for every i) and the counters of
`f`; it is `f` with only `last_poped` replaced, and `poped()` is the entry just
pushed: the token-derived fields, with `indent_tab`, `indent_cont` and `ip`
taken from `e`. -/
theorem C19_push_pop_round_trip (f : ParseFrame) (pc : chunk_t) (stage : brace_stage_e)
    (h : 1 ≤ f.size) :
    ∃ e g k, f.top = Except.ok e ∧ f.push pc stage = Except.ok g ∧
      g.pop = Except.ok k ∧ k.pse = f.pse ∧ k.size = f.size ∧
      (∀ i, k.at i = f.at i) ∧
      k.ref_no = f.ref_no ∧ k.level = f.level ∧ k.brace_level = f.brace_level ∧
      k.pp_level = f.pp_level ∧ k.sparen_count = f.sparen_count ∧
      k.paren_count = f.paren_count ∧ k.stmt_count = f.stmt_count ∧
      k.expr_count = f.expr_count ∧ k.in_ifdef = f.in_ifdef ∧
      k = { f with last_poped := k.poped } ∧ g.top = Except.ok k.poped ∧
      k.poped =
        { type := pc.type, level := pc.level, open_line := pc.orig_line,
          open_colu := pc.orig_col, pc := some pc, indent := 0, indent_tmp := 0,
          indent_tab := e.indent_tab, indent_cont := e.indent_cont, stage := stage,
          in_preproc := pc.flags.test PCF_IN_PREPROC, non_vardef := false,
          ip := e.ip } := by
  obtain ⟨l, e, hl⟩ := exists_concat_of_size_pos f h
  have hne : f.pse ≠ [] := by
    simp [hl]
  have hp := pop_of_concat { f with pse := f.pse ++ [pushed_entry e pc stage] }
    f.pse (pushed_entry e pc stage) rfl
  rw [if_neg hne] at hp
  exact ⟨e, _, _, top_of_concat f l e hl, push_of_concat f l e hl pc stage, hp,
    rfl, rfl, fun _ => rfl, rfl, rfl, rfl, rfl, rfl, rfl, rfl, rfl, rfl, rfl,
    top_of_concat _ f.pse _ rfl, rfl⟩

/-- Witness of C19: a push of the parenthesis token and a pop on the frame of
size 2 with written counters. -/
theorem C19_push_pop_round_trip_witness :
    1 ≤ sample_frame_counted.size ∧
      ∃ e g k, sample_frame_counted.top = Except.ok e ∧
        sample_frame_counted.push sample_paren 2 = Except.ok g ∧
        g.pop = Except.ok k ∧ k.pse = sample_frame_counted.pse ∧
        k.size = sample_frame_counted.size ∧
        (∀ i, k.at i = sample_frame_counted.at i) ∧
        k.ref_no = sample_frame_counted.ref_no ∧ k.level = sample_frame_counted.level ∧
        k.brace_level = sample_frame_counted.brace_level ∧
        k.pp_level = sample_frame_counted.pp_level ∧
        k.sparen_count = sample_frame_counted.sparen_count ∧
        k.paren_count = sample_frame_counted.paren_count ∧
        k.stmt_count = sample_frame_counted.stmt_count ∧
        k.expr_count = sample_frame_counted.expr_count ∧
        k.in_ifdef = sample_frame_counted.in_ifdef ∧
        k = { sample_frame_counted with last_poped := k.poped } ∧
        g.top = Except.ok k.poped ∧
        k.poped =
          { type := sample_paren.type, level := sample_paren.level,
            open_line := sample_paren.orig_line, open_colu := sample_paren.orig_col,
            pc := some sample_paren, indent := 0, indent_tmp := 0,
            indent_tab := e.indent_tab, indent_cont := e.indent_cont, stage := 2,
            in_preproc := sample_paren.flags.test PCF_IN_PREPROC, non_vardef := false,
            ip := e.ip } :=
  ⟨by decide, C19_push_pop_round_trip sample_frame_counted sample_paren 2 (by decide)⟩

theorem prev_const_error_iff (f : ParseFrame) (idx : Nat) :
    (∃ x, f.prev_const idx = Except.error x) ↔ (idx = 0 ∨ idx ≥ f.size) := by
  constructor
  · rintro ⟨x, hx⟩
    by_contra hcon
    have hc2 : ¬ (idx = 0 ∨ f.pse.length ≤ idx) := hcon
    push_neg at hcon
    obtain ⟨e, he, _⟩ := prev_eq_at f idx hcon.1 hcon.2
    have hnot : ¬ (f.pse.length ≤ idx) := fun hh => hc2 (Or.inr hh)
    simp only [ParseFrame.prev_const, if_neg hc2] at hx
    simp only [ParseFrame.prev, if_neg hcon.1] at he
    have hge : ¬ (idx ≥ f.pse.length) := hnot
    rw [if_neg hge] at he
    rw [he] at hx
    cases hx
  · intro h
    have h2 : idx = 0 ∨ idx ≥ f.pse.length := h
    exact ⟨Failure.invalid_argument 90, by simp only [ParseFrame.prev_const, if_pos h2]⟩

theorem prev_const_eq_prev_of_ok (f : ParseFrame) (idx : Nat) (h0 : idx ≠ 0)
    (h1 : idx < f.size) : f.prev_const idx = f.prev idx := by
  have hnot : ¬ (idx ≥ f.pse.length) := by
    have : idx < f.pse.length := h1
    omega
  have hc2 : ¬ (idx = 0 ∨ idx ≥ f.pse.length) := by
    rintro (h | h)
    · exact h0 h
    · exact hnot h
  simp only [ParseFrame.prev_const, ParseFrame.prev, if_neg hc2, if_neg h0, if_neg hnot]

theorem prev_const_error_thrown (f : ParseFrame) (idx : Nat) (y : Failure)
    (h : f.prev_const idx = Except.error y) :
    y.thrown = some exception_kind.std_invalid_argument := by
  by_cases hc : idx = 0 ∨ idx ≥ f.pse.length
  · simp only [ParseFrame.prev_const, if_pos hc] at h
    injection h with h
    subst h
    rfl
  · have h0 : idx ≠ 0 := fun hh => hc (Or.inl hh)
    have h1 : idx < f.size := by
      have : ¬ (idx ≥ f.pse.length) := fun hh => hc (Or.inr hh)
      simp only [ParseFrame.size]
      omega
    rw [prev_const_eq_prev_of_ok f idx h0 h1] at h
    exact prev_error_thrown f idx y h

/-- C20 (the two overloads of prev agree): the non-const `prev` (two checks)
and the const `prev` (one combined check) fail on exactly the same inputs,
namely `idx == 0` or `idx >= size()`, both with `std::invalid_argument`; on
every other input both return the same entry, the one `at(size() - 1 - idx)`
returns. -/
theorem C20_prev_overloads_agree (f : ParseFrame) (idx : Nat) :
    ((∃ x, f.prev idx = Except.error x) ↔ (∃ y, f.prev_const idx = Except.error y)) ∧
      ((∃ x, f.prev idx = Except.error x) ↔ (idx = 0 ∨ idx ≥ f.size)) ∧
      (∀ x y, f.prev idx = Except.error x → f.prev_const idx = Except.error y →
        x.thrown = y.thrown ∧ x.thrown = some exception_kind.std_invalid_argument) ∧
      (idx ≠ 0 → idx < f.size →
        ∃ e, f.prev idx = Except.ok e ∧ f.prev_const idx = Except.ok e ∧
          f.at (f.size - 1 - idx) = Except.ok e) := by
  refine ⟨?_, prev_error_iff f idx, ?_, ?_⟩
  · rw [prev_error_iff, prev_const_error_iff]
  · intro x y hx hy
    rw [prev_error_thrown f idx x hx, prev_const_error_thrown f idx y hy]
    exact ⟨rfl, rfl⟩
  · intro h0 h1
    obtain ⟨e, he, ha⟩ := prev_eq_at f idx h0 h1
    exact ⟨e, he, by rw [prev_const_eq_prev_of_ok f idx h0 h1]; exact he, ha⟩

/-- Witness of C20: on the frame of size 3, both overloads return the bottom
entry for `idx` 2. -/
theorem C20_prev_overloads_agree_witness :
    (2 ≠ 0 ∧ 2 < sample_frame3.size) ∧
      ∃ e, sample_frame3.prev 2 = Except.ok e ∧ sample_frame3.prev_const 2 = Except.ok e ∧
        sample_frame3.at (sample_frame3.size - 1 - 2) = Except.ok e :=
  ⟨by decide, (C20_prev_overloads_agree sample_frame3 2).2.2.2 (by decide) (by decide)⟩
